import Mathlib

/-!
Verification of the KnoRa retrieval frontend.

This file gives a shallow embedding of the application's Zustand store
operations (store.ts), the file-validation logic (FileUpload component),
the query handler pipeline (IntelligentQueryTab handleSearch), and the
API retry policy (api.ts), together with definitions modelled from the
specification for the backend chunker and vector-store search, which are
not part of this repository's sources.
-/

namespace Knora

/-- One chunk of a processed document, as in the frontend API types. -/
structure DocumentChunk where
  text : String
  size : Nat
  chunk_id : Nat
deriving DecidableEq

/-- A processed document, as in the frontend API types. -/
structure ProcessedDocument where
  file_path : String
  file_name : String
  file_type : String
  text : String
  chunks : List DocumentChunk
  num_chunks : Nat
  file_size : Nat
deriving DecidableEq

/-- A single search result, as in the frontend API types; the similarity
score is modelled as a rational number. -/
structure SearchResult where
  file_path : String
  file_name : String
  file_type : String
  chunk_id : Nat
  chunk_size : Nat
  text : String
  similarity_score : ℚ
deriving DecidableEq

/-- Vector store statistics, as in the frontend API types. -/
structure VectorStoreStats where
  total_vectors : Nat
  total_documents : Nat
  embedding_model : String
  dimension : Nat
  store_path : String
  documents : List String
  storage_size_mb : ℚ
deriving DecidableEq

/-- The three navigation tabs of the application. -/
inductive Tab
  | ingestion
  | query
  | analytics
deriving DecidableEq

/-- The data fields of the Zustand AppState (store.ts); the setter
functions of the store are modelled as functions on this state type. -/
structure AppState where
  activeTab : Tab
  error : Option String
  documents : List ProcessedDocument
  searchResults : List SearchResult
  currentQuery : String
  currentAnswer : Option String
  stats : Option VectorStoreStats
  chunkSize : Nat
  chunkOverlap : Nat
  searchK : Nat
  scoreThreshold : ℚ
  temperature : ℚ
  maxTokens : Nat
  selectedModel : String
  backendConnected : Bool
  isSearching : Bool
  searchAbortSignal : Option Nat
deriving DecidableEq

/-- store.ts removeDocument: keeps exactly the documents whose file_path
differs from the removed one. -/
def removeDocument (filePath : String) (s : AppState) : AppState :=
  { s with documents := s.documents.filter (fun d => d.file_path != filePath) }

/-- store.ts clearQueryState: resets the query text, the answer and the
search results. -/
def clearQueryState (s : AppState) : AppState :=
  { s with currentQuery := "", currentAnswer := none, searchResults := [] }

/-- The shape persisted by the store's partialize projection (store.ts):
exactly the settings fields. -/
structure PersistedState where
  activeTab : Tab
  chunkSize : Nat
  chunkOverlap : Nat
  searchK : Nat
  scoreThreshold : ℚ
  temperature : ℚ
  maxTokens : Nat
  selectedModel : String
deriving DecidableEq

/-- store.ts partialize: the projection of the application state that is
persisted across process restarts. -/
def partialize (s : AppState) : PersistedState :=
  { activeTab := s.activeTab
    chunkSize := s.chunkSize
    chunkOverlap := s.chunkOverlap
    searchK := s.searchK
    scoreThreshold := s.scoreThreshold
    temperature := s.temperature
    maxTokens := s.maxTokens
    selectedModel := s.selectedModel }

/-- A vector store entry holding the back-reference to its chunk, used by
the spec-modelled backend operations. -/
structure VectorEntry where
  doc_id : String
  chunk_index : Nat
  text : String
deriving DecidableEq

/-- Modelled from the spec: Vector Store delete (section 4.2) is backend
code absent from src; it removes all entries of the given document and is
a no-op when the document is not present. -/
def storeDelete (docId : String) (entries : List VectorEntry) : List VectorEntry :=
  entries.filter (fun e => e.doc_id != docId)

lemma filter_self_idem (p : α → Bool) (l : List α) :
    (l.filter p).filter p = l.filter p := by
  induction l with
  | nil => rfl
  | cons a t ih =>
    by_cases h : p a
    · simp [List.filter_cons, h, ih]
    · simp [List.filter_cons, h, ih]

/-- Claim C5: document deletion is idempotent — removing a document twice
from the frontend store yields the same state as removing it once, and
removing an absent document is a no-op; the same holds for the
spec-modelled vector store delete. -/
theorem removeDocument_idempotent (s : AppState) (fp : String)
    (entries : List VectorEntry) :
    removeDocument fp (removeDocument fp s) = removeDocument fp s ∧
    ((∀ d ∈ s.documents, d.file_path ≠ fp) → removeDocument fp s = s) ∧
    storeDelete fp (storeDelete fp entries) = storeDelete fp entries ∧
    ((∀ e ∈ entries, e.doc_id ≠ fp) → storeDelete fp entries = entries) := by
  refine ⟨?_, ?_, ?_, ?_⟩
  · cases s
    simp only [removeDocument]
    rw [filter_self_idem]
  · intro h
    cases s
    simp only [removeDocument, AppState.mk.injEq, and_true, true_and]
    rw [List.filter_eq_self]
    intro d hd
    simpa using h d hd
  · simp only [storeDelete]
    rw [filter_self_idem]
  · intro h
    simp only [storeDelete]
    rw [List.filter_eq_self]
    intro e he
    simpa using h e he

/-- A concrete application state used by witnesses. -/
def demoState : AppState :=
  { activeTab := Tab.query
    error := none
    documents := [{ file_path := "a.txt", file_name := "a.txt", file_type := "txt",
                    text := "hello", chunks := [], num_chunks := 0, file_size := 5 }]
    searchResults := []
    currentQuery := ""
    currentAnswer := none
    stats := none
    chunkSize := 1000
    chunkOverlap := 200
    searchK := 5
    scoreThreshold := 0
    temperature := 7/10
    maxTokens := 2048
    selectedModel := "mixtral-8x7b-32768"
    backendConnected := false
    isSearching := false
    searchAbortSignal := none }

theorem removeDocument_idempotent_witness :
    removeDocument "missing.txt" demoState = demoState ∧
    removeDocument "a.txt" (removeDocument "a.txt" demoState) =
      removeDocument "a.txt" demoState := by
  have h1 := removeDocument_idempotent demoState "missing.txt" []
  have h2 := removeDocument_idempotent demoState "a.txt" []
  exact ⟨h1.2.1 (by decide), h2.1⟩

/-- Claim C9: the persisted projection is determined by, and determines,
exactly the eight settings fields, and is unchanged by any modification of
the transient query text, answer and search results. -/
theorem partialize_persists_settings_only :
    (∀ s t : AppState,
      partialize s = partialize t ↔
        (s.activeTab = t.activeTab ∧ s.chunkSize = t.chunkSize ∧
         s.chunkOverlap = t.chunkOverlap ∧ s.searchK = t.searchK ∧
         s.scoreThreshold = t.scoreThreshold ∧ s.temperature = t.temperature ∧
         s.maxTokens = t.maxTokens ∧ s.selectedModel = t.selectedModel)) ∧
    (∀ (s : AppState) (q : String) (a : Option String) (r : List SearchResult),
      partialize { s with currentQuery := q, currentAnswer := a, searchResults := r } =
        partialize s) := by
  constructor
  · intro s t
    simp [partialize, PersistedState.mk.injEq]
  · intro s q a r
    rfl

/-- Claim C10: clearQueryState resets exactly the three query-related
fields and leaves every other field of the state unchanged. -/
theorem clearQueryState_frame (s : AppState) :
    (clearQueryState s).currentQuery = "" ∧
    (clearQueryState s).currentAnswer = none ∧
    (clearQueryState s).searchResults = [] ∧
    (clearQueryState s).activeTab = s.activeTab ∧
    (clearQueryState s).error = s.error ∧
    (clearQueryState s).documents = s.documents ∧
    (clearQueryState s).stats = s.stats ∧
    (clearQueryState s).chunkSize = s.chunkSize ∧
    (clearQueryState s).chunkOverlap = s.chunkOverlap ∧
    (clearQueryState s).searchK = s.searchK ∧
    (clearQueryState s).scoreThreshold = s.scoreThreshold ∧
    (clearQueryState s).temperature = s.temperature ∧
    (clearQueryState s).maxTokens = s.maxTokens ∧
    (clearQueryState s).selectedModel = s.selectedModel ∧
    (clearQueryState s).backendConnected = s.backendConnected ∧
    (clearQueryState s).isSearching = s.isSearching ∧
    (clearQueryState s).searchAbortSignal = s.searchAbortSignal :=
  ⟨rfl, rfl, rfl, rfl, rfl, rfl, rfl, rfl, rfl, rfl, rfl, rfl, rfl, rfl, rfl, rfl, rfl⟩

/-- Splits a character list at every occurrence of the separator, as the
JavaScript string split method does. -/
def splitOnCharAux (sep : Char) : List Char → List Char → List (List Char)
  | [], acc => [acc.reverse]
  | c :: cs, acc =>
    if c = sep then acc.reverse :: splitOnCharAux sep cs []
    else splitOnCharAux sep cs (c :: acc)

def splitOnChar (sep : Char) (l : List Char) : List (List Char) :=
  splitOnCharAux sep l []

/-- Character-wise lower-casing of a string, modelling toLowerCase. -/
def toLowerStr (s : String) : String :=
  String.mk (s.data.map Char.toLower)

/-- A supported upload format, as in the FileUpload component. -/
structure SupportedFormat where
  extension : String
  name : String
  max_size_mb : Nat
deriving DecidableEq

/-- The name and byte size of a selected file. -/
structure FileInfo where
  name : String
  size : Nat
deriving DecidableEq

/-- FileUpload validateFile's extension computation: a dot followed by the
lower-cased last dot-separated component of the file name. -/
def fileExtension (name : String) : String :=
  String.mk ('.' :: ((splitOnChar '.' name.data).getLastD []).map Char.toLower)

/-- FileUpload validateFile: rejects files over 100 MB, then rejects
unsupported extensions. -/
def validateFile (formats : List SupportedFormat) (f : FileInfo) : Bool :=
  if 100 * 1024 * 1024 < f.size then false
  else if formats.any
      (fun fmt => toLowerStr fmt.extension == toLowerStr (fileExtension f.name)) then
    true
  else false

/-- FileUpload handleFilesSelected: only files passing validateFile are
passed on to the upload routine. -/
def handleFilesSelected (formats : List SupportedFormat) (files : List FileInfo) :
    List FileInfo :=
  files.filter (validateFile formats)

/-- Claim C7: a file strictly over 100 MB is rejected by validation and is
never uploaded; a file of at most 100 MB with a supported extension passes
validation. -/
theorem validateFile_sizePolicy (formats : List SupportedFormat)
    (files : List FileInfo) (f : FileInfo) :
    (100 * 1024 * 1024 < f.size →
      validateFile formats f = false ∧ f ∉ handleFilesSelected formats files) ∧
    (f.size ≤ 100 * 1024 * 1024 →
      (∃ fmt ∈ formats,
        toLowerStr fmt.extension = toLowerStr (fileExtension f.name)) →
      validateFile formats f = true) := by
  constructor
  · intro h
    have hv : validateFile formats f = false := by
      simp [validateFile, h]
    refine ⟨hv, ?_⟩
    intro hmem
    rw [handleFilesSelected, List.mem_filter] at hmem
    rw [hv] at hmem
    exact Bool.false_ne_true hmem.2
  · intro hsize hfmt
    obtain ⟨fmt, hmem, heq⟩ := hfmt
    have hlt : ¬ (100 * 1024 * 1024 < f.size) := by omega
    simp only [validateFile, if_neg hlt]
    rw [if_pos]
    rw [List.any_eq_true]
    exact ⟨fmt, hmem, by simpa using heq⟩

/-- The default supported formats of the FileUpload component (the first
two entries suffice for the witnesses). -/
def demoFormats : List SupportedFormat :=
  [{ extension := ".pdf", name := "PDF Document", max_size_mb := 100 },
   { extension := ".txt", name := "Plain Text", max_size_mb := 100 }]

theorem validateFile_sizePolicy_witness :
    validateFile demoFormats { name := "big.pdf", size := 104857601 } = false ∧
    validateFile demoFormats { name := "ok.pdf", size := 1024 } = true := by
  have h1 := validateFile_sizePolicy demoFormats []
    { name := "big.pdf", size := 104857601 }
  have h2 := validateFile_sizePolicy demoFormats []
    { name := "ok.pdf", size := 1024 }
  refine ⟨(h1.1 (by norm_num)).1, h2.2 (by norm_num) ?_⟩
  refine ⟨{ extension := ".pdf", name := "PDF Document", max_size_mb := 100 },
    by decide, by decide⟩

/-- The response attached to an axios error, as read by api.ts. -/
structure AxiosResponse where
  status : Nat
  dataMessage : Option String
  statusText : Option String
deriving DecidableEq

/-- The shape of an axios error as read by api.ts: whether axios produced
it, its error code, its optional HTTP response, and its message. -/
structure AxiosErr where
  isAxiosError : Bool
  code : Option String
  response : Option AxiosResponse
  message : String
deriving DecidableEq

/-- The status-code switch of api.ts getErrorMessage. -/
def statusMessage (r : AxiosResponse) : String :=
  if r.status = 400 then "Invalid request - check your input"
  else if r.status = 404 then "Resource not found"
  else if r.status = 408 then "Request timeout"
  else if r.status = 413 then "File too large"
  else if r.status = 429 then "Too many requests - please wait"
  else if r.status = 500 then "Server error - please try again later"
  else if r.status = 503 then "Server is unavailable - please try again later"
  else
    match r.statusText with
    | some t => if t = "" then "Unknown error occurred" else t
    | none => "Unknown error occurred"

/-- api.ts getErrorMessage: maps an error to a user-facing message
(truthiness of the JavaScript fields is modelled by emptiness checks). -/
def getErrorMessage (e : AxiosErr) : String :=
  if e.isAxiosError then
    if e.code = some "ECONNABORTED" then "Request timeout - backend is not responding"
    else if e.code = some "ERR_NETWORK" ∨ e.response = none then
      "Network error - check your connection and backend status"
    else
      match e.response with
      | none => "Unknown error occurred"
      | some r =>
        match r.dataMessage with
        | some m => if m = "" then statusMessage r else m
        | none => statusMessage r
  else if e.message = "" then "Unknown error occurred"
  else e.message

/-- The response-status part of api.ts shouldRetry: retry on 5xx (with the
JavaScript truthiness check on the status), 408 and 429. -/
def respRetry : Option AxiosResponse → Bool
  | some r =>
    if r.status ≠ 0 ∧ 500 ≤ r.status then true
    else if r.status = 408 ∨ r.status = 429 then true
    else false
  | none => false

/-- api.ts shouldRetry: retry only below the attempt budget and only for
axios errors that are timeouts, network errors, 5xx, 408 or 429. -/
def shouldRetry (e : AxiosErr) (attemptNumber maxRetries : Nat) : Bool :=
  if maxRetries ≤ attemptNumber then false
  else if e.isAxiosError = false then false
  else if e.code = some "ECONNABORTED" ∨ e.code = some "ERR_NETWORK" then true
  else respRetry e.response

/-- api.ts RetryConfig. -/
structure RetryConfig where
  maxRetries : Nat
  delayMs : ℚ
  backoffMultiplier : ℚ
deriving DecidableEq

/-- api.ts DEFAULT_RETRY_CONFIG: two attempts, 500 ms base delay,
backoff multiplier 1.5. -/
def defaultRetryConfig : RetryConfig :=
  { maxRetries := 2, delayMs := 500, backoffMultiplier := 3 / 2 }

/-- The observable outcome of a retried request: the final result, the
number of request attempts actually issued, and the delays slept. -/
structure RetryResult (α : Type) where
  outcome : Except AxiosErr α
  attemptsMade : Nat
  delays : List ℚ

/-- The error thrown when the retry loop body never ran (the JavaScript
code would throw an undefined lastError). -/
def fallbackErr : AxiosErr :=
  { isAxiosError := false, code := none, response := none, message := "undefined" }

/-- The retry loop shared by apiService.search and
apiService.generateAnswer: for each attempt index, issue the request; on
an error, retry after delayMs * backoffMultiplier ^ attempt when
shouldRetry allows it, otherwise rethrow; after the loop, throw the last
error. -/
def retryGo (cfg : RetryConfig) (outcomes : Nat → Except AxiosErr α)
    (lastErr : AxiosErr) : List Nat → RetryResult α
  | [] => ⟨.error lastErr, 0, []⟩
  | a :: rest =>
    match outcomes a with
    | .ok v => ⟨.ok v, 1, []⟩
    | .error e =>
      if shouldRetry e a cfg.maxRetries then
        ⟨(retryGo cfg outcomes e rest).outcome,
         (retryGo cfg outcomes e rest).attemptsMade + 1,
         cfg.delayMs * cfg.backoffMultiplier ^ a :: (retryGo cfg outcomes e rest).delays⟩
      else ⟨.error e, 1, []⟩

def requestWithRetry (cfg : RetryConfig) (outcomes : Nat → Except AxiosErr α) :
    RetryResult α :=
  retryGo cfg outcomes fallbackErr (List.range cfg.maxRetries)

/-- The body of a successful search response. -/
structure SearchResponseData where
  results : List SearchResult
  query : String
  count : Nat
deriving DecidableEq

/-- The body of a successful answer response (only the fields the handler
reads). -/
structure AnswerData where
  answer : String
  sources : List String
deriving DecidableEq

/-- apiService.search: the search POST wrapped in the default retry
policy; the outcome function gives the result of each attempt. -/
def apiSearchCall (outcomes : Nat → Except AxiosErr SearchResponseData) :
    RetryResult SearchResponseData :=
  requestWithRetry defaultRetryConfig outcomes

/-- apiService.generateAnswer: the answer POST wrapped in the default
retry policy. -/
def apiGenerateAnswerCall (outcomes : Nat → Except AxiosErr AnswerData) :
    RetryResult AnswerData :=
  requestWithRetry defaultRetryConfig outcomes

/-- The transient-error class of the spec: timeout, network error,
HTTP 5xx, 408 or 429. -/
def transientErr (e : AxiosErr) : Prop :=
  e.isAxiosError = true ∧
    (e.code = some "ECONNABORTED" ∨ e.code = some "ERR_NETWORK" ∨
      (∃ r, e.response = some r ∧ (500 ≤ r.status ∨ r.status = 408 ∨ r.status = 429)))

lemma respRetry_iff (resp : Option AxiosResponse) :
    respRetry resp = true ↔
      ∃ r, resp = some r ∧ (500 ≤ r.status ∨ r.status = 408 ∨ r.status = 429) := by
  rcases resp with _ | r
  · simp [respRetry]
  · simp only [respRetry, Option.some.injEq]
    constructor
    · intro h
      by_cases h5 : r.status ≠ 0 ∧ 500 ≤ r.status
      · exact ⟨r, rfl, Or.inl h5.2⟩
      · rw [if_neg h5] at h
        by_cases h6 : r.status = 408 ∨ r.status = 429
        · exact ⟨r, rfl, Or.inr h6⟩
        · rw [if_neg h6] at h
          exact absurd h (by simp)
    · rintro ⟨r2, hr2, hst⟩
      subst hr2
      rcases hst with h | h | h
      · rw [if_pos ⟨by omega, h⟩]
      · rw [if_neg (by omega), if_pos (Or.inl h)]
      · rw [if_neg (by omega), if_pos (Or.inr h)]

lemma shouldRetry_iff (e : AxiosErr) (a : Nat) :
    shouldRetry e a 2 = true ↔ (a < 2 ∧ transientErr e) := by
  obtain ⟨ax, code, resp, msg⟩ := e
  unfold shouldRetry transientErr
  dsimp only
  by_cases h1 : (2 : Nat) ≤ a
  · rw [if_pos h1]
    simp only [Bool.false_eq_true, false_iff, not_and]
    intro ha
    omega
  · rw [if_neg h1]
    cases ax with
    | false =>
      rw [if_pos rfl]
      simp
    | true =>
      rw [if_neg (by simp)]
      by_cases h3 : code = some "ECONNABORTED" ∨ code = some "ERR_NETWORK"
      · rw [if_pos h3]
        constructor
        · intro _
          refine ⟨by omega, rfl, ?_⟩
          rcases h3 with h | h
          · exact Or.inl h
          · exact Or.inr (Or.inl h)
        · intro _
          rfl
      · rw [if_neg h3, respRetry_iff]
        rw [not_or] at h3
        constructor
        · rintro ⟨r, hr, hst⟩
          exact ⟨by omega, rfl, Or.inr (Or.inr ⟨r, hr, hst⟩)⟩
        · rintro ⟨_, _, hc | hc | hrest⟩
          · exact absurd hc h3.1
          · exact absurd hc h3.2
          · exact hrest

lemma retryGo_attempts_le (cfg : RetryConfig) (outcomes : Nat → Except AxiosErr α)
    (le : AxiosErr) (l : List Nat) :
    (retryGo cfg outcomes le l).attemptsMade ≤ l.length := by
  induction l generalizing le with
  | nil => simp [retryGo]
  | cons a rest ih =>
    rcases h : outcomes a with e | v
    · by_cases hr : shouldRetry e a cfg.maxRetries
      · have hrec := ih e
        simp only [retryGo, h, hr, if_true, List.length_cons]
        omega
      · simp [retryGo, h, hr]
    · simp [retryGo, h]

lemma retryGo_attempts_pos (cfg : RetryConfig) (outcomes : Nat → Except AxiosErr α)
    (le : AxiosErr) (a : Nat) (rest : List Nat) :
    1 ≤ (retryGo cfg outcomes le (a :: rest)).attemptsMade := by
  rcases h : outcomes a with e | v
  · by_cases hr : shouldRetry e a cfg.maxRetries
    · simp [retryGo, h, hr]
    · simp [retryGo, h, hr]
  · simp [retryGo, h]

lemma retryGo_delays_get (cfg : RetryConfig) (outcomes : Nat → Except AxiosErr α)
    (le : AxiosErr) (l : List Nat) :
    ∀ i d, (retryGo cfg outcomes le l).delays.get? i = some d →
      ∃ j, l.get? i = some j ∧ d = cfg.delayMs * cfg.backoffMultiplier ^ j := by
  induction l generalizing le with
  | nil =>
    intro i d hd
    simp [retryGo] at hd
  | cons a rest ih =>
    intro i d hd
    rcases h : outcomes a with e | v
    · by_cases hr : shouldRetry e a cfg.maxRetries
      · simp only [retryGo, h, hr, if_true] at hd
        cases i with
        | zero =>
          simp only [List.get?] at hd
          injection hd with hd
          exact ⟨a, rfl, hd.symm⟩
        | succ i2 =>
          simp only [List.get?] at hd
          obtain ⟨j, hj, hdj⟩ := ih e i2 d hd
          exact ⟨j, by simpa using hj, hdj⟩
      · simp [retryGo, h, hr] at hd
    · simp [retryGo, h] at hd

lemma retryGo_cons_ok (cfg : RetryConfig) (outcomes : Nat → Except AxiosErr α)
    (le : AxiosErr) (a : Nat) (rest : List Nat) (v : α) (h : outcomes a = .ok v) :
    retryGo cfg outcomes le (a :: rest) = ⟨.ok v, 1, []⟩ := by
  simp [retryGo, h]

lemma retryGo_cons_retry (cfg : RetryConfig) (outcomes : Nat → Except AxiosErr α)
    (le : AxiosErr) (a : Nat) (rest : List Nat) (e : AxiosErr)
    (h : outcomes a = .error e) (hr : shouldRetry e a cfg.maxRetries = true) :
    retryGo cfg outcomes le (a :: rest) =
      ⟨(retryGo cfg outcomes e rest).outcome,
       (retryGo cfg outcomes e rest).attemptsMade + 1,
       cfg.delayMs * cfg.backoffMultiplier ^ a :: (retryGo cfg outcomes e rest).delays⟩ := by
  simp [retryGo, h, hr]

lemma retryGo_cons_stop (cfg : RetryConfig) (outcomes : Nat → Except AxiosErr α)
    (le : AxiosErr) (a : Nat) (rest : List Nat) (e : AxiosErr)
    (h : outcomes a = .error e) (hr : shouldRetry e a cfg.maxRetries = false) :
    retryGo cfg outcomes le (a :: rest) = ⟨.error e, 1, []⟩ := by
  simp [retryGo, h, hr]

lemma range_two_get (i j : Nat) (h : (List.range 2).get? i = some j) : j = i := by
  have hr : List.range 2 = [0, 1] := rfl
  rw [hr] at h
  match i, h with
  | 0, h => injection h with h; omega
  | 1, h => injection h with h; omega

/-- Claim C3: search and answer generation both use the bounded retry
policy — at most two request attempts, exponentially backed-off delays of
500 * 1.5 ^ attempt, retried exactly for the transient error class and
never for an HTTP 400 validation failure. -/
theorem retryPolicy_bounded_transient
    (so : Nat → Except AxiosErr SearchResponseData)
    (ao : Nat → Except AxiosErr AnswerData) :
    (apiSearchCall so).attemptsMade ≤ 2 ∧
    (apiGenerateAnswerCall ao).attemptsMade ≤ 2 ∧
    (∀ i d, (apiSearchCall so).delays.get? i = some d → d = 500 * (3 / 2 : ℚ) ^ i) ∧
    (∀ i d, (apiGenerateAnswerCall ao).delays.get? i = some d →
      d = 500 * (3 / 2 : ℚ) ^ i) ∧
    (∀ (e : AxiosErr) (a : Nat), shouldRetry e a 2 = true ↔ (a < 2 ∧ transientErr e)) ∧
    (∀ (e : AxiosErr) r, e.response = some r → r.status = 400 →
      e.code ≠ some "ECONNABORTED" → e.code ≠ some "ERR_NETWORK" →
      ∀ a m, shouldRetry e a m = false) ∧
    (1 < (apiSearchCall so).attemptsMade ↔
      ∃ e, so 0 = .error e ∧ shouldRetry e 0 2 = true) := by
  refine ⟨?_, ?_, ?_, ?_, shouldRetry_iff, ?_, ?_⟩
  · exact retryGo_attempts_le defaultRetryConfig so fallbackErr (List.range 2)
  · exact retryGo_attempts_le defaultRetryConfig ao fallbackErr (List.range 2)
  · intro i d hd
    obtain ⟨j, hj, hdj⟩ :=
      retryGo_delays_get defaultRetryConfig so fallbackErr (List.range 2) i d hd
    rw [range_two_get i j hj] at hdj
    exact hdj
  · intro i d hd
    obtain ⟨j, hj, hdj⟩ :=
      retryGo_delays_get defaultRetryConfig ao fallbackErr (List.range 2) i d hd
    rw [range_two_get i j hj] at hdj
    exact hdj
  · intro e r hr h400 hc1 hc2 a m
    unfold shouldRetry
    by_cases h1 : m ≤ a
    · rw [if_pos h1]
    · rw [if_neg h1]
      by_cases h2 : e.isAxiosError = false
      · rw [if_pos h2]
      · rw [if_neg h2, if_neg (by rw [not_or]; exact ⟨hc1, hc2⟩), hr]
        simp [respRetry, h400]
  · unfold apiSearchCall requestWithRetry
    rw [show List.range defaultRetryConfig.maxRetries = [0, 1] from rfl]
    constructor
    · intro hgt
      rcases h0 : so 0 with e0 | v0
      · cases hb : shouldRetry e0 0 defaultRetryConfig.maxRetries with
        | false =>
          rw [retryGo_cons_stop defaultRetryConfig so fallbackErr 0 [1] e0 h0 hb] at hgt
          dsimp only at hgt
          exact absurd hgt (by omega)
        | true => exact ⟨e0, rfl, hb⟩
      · rw [retryGo_cons_ok defaultRetryConfig so fallbackErr 0 [1] v0 h0] at hgt
        dsimp only at hgt
        exact absurd hgt (by omega)
    · rintro ⟨e, he, hre⟩
      have hre2 : shouldRetry e 0 defaultRetryConfig.maxRetries = true := hre
      rw [retryGo_cons_retry defaultRetryConfig so fallbackErr 0 [1] e he hre2]
      have hpos := retryGo_attempts_pos defaultRetryConfig so e 1 []
      dsimp only
      omega

/-- A transient (network) error used by the retry witnesses. -/
def demoNetErr : AxiosErr :=
  { isAxiosError := true, code := some "ERR_NETWORK", response := none,
    message := "Network Error" }

/-- A validation-class HTTP 400 error used by the retry witnesses. -/
def demoBadRequestErr : AxiosErr :=
  { isAxiosError := true, code := none,
    response := some { status := 400, dataMessage := none, statusText := none },
    message := "Bad Request" }

def demoSearchOutcomes : Nat → Except AxiosErr SearchResponseData :=
  fun _ => .error demoNetErr

def demoAnswerOutcomes : Nat → Except AxiosErr AnswerData :=
  fun _ => .error demoNetErr

theorem retryPolicy_bounded_transient_witness :
    (apiSearchCall demoSearchOutcomes).attemptsMade ≤ 2 ∧
    defaultRetryConfig.delayMs * defaultRetryConfig.backoffMultiplier ^ 0 =
      500 * (3 / 2 : ℚ) ^ (0 : ℕ) ∧
    shouldRetry demoNetErr 0 2 = true ∧
    shouldRetry demoBadRequestErr 0 2 = false := by
  have h := retryPolicy_bounded_transient demoSearchOutcomes demoAnswerOutcomes
  have hget : (apiSearchCall demoSearchOutcomes).delays.get? 0 =
      some (defaultRetryConfig.delayMs * defaultRetryConfig.backoffMultiplier ^ 0) := by
    rw [apiSearchCall, requestWithRetry,
      show List.range defaultRetryConfig.maxRetries = [0, 1] from rfl,
      retryGo_cons_retry defaultRetryConfig demoSearchOutcomes fallbackErr 0 [1]
        demoNetErr rfl (by decide)]
    rfl
  refine ⟨h.1, h.2.2.1 0 _ hget, ?_, ?_⟩
  · exact (h.2.2.2.2.1 demoNetErr 0).2 ⟨by omega, rfl, Or.inr (Or.inl rfl)⟩
  · exact h.2.2.2.2.2.1 demoBadRequestErr
      { status := 400, dataMessage := none, statusText := none }
      rfl rfl (by decide) (by decide) 0 2

/-- JavaScript-style whitespace test for the characters relevant to the
query trim. -/
def isWhitespaceChar (c : Char) : Bool :=
  c = ' ' ∨ c = '\t' ∨ c = '\n' ∨ c = '\r'

/-- The query trim of handleSearch (currentQuery.trim()): strips
whitespace from both ends. -/
def trimStr (s : String) : String :=
  String.mk (((s.data.dropWhile isWhitespaceChar).reverse.dropWhile
    isWhitespaceChar).reverse)

/-- A write to the shared Zustand store performed by the query handler. -/
inductive StoreWrite
  | clearResults
  | setResults (rs : List SearchResult)
  | setAnswer (a : Option String)
  | setSearching (b : Bool)
deriving DecidableEq

/-- The environment of one handleSearch execution: the query text, the
outcome of the (retried) search call, the outcome of the (retried) answer
call, and the abort-signal value observed at each of the four points where
the handler samples it. -/
structure SearchEnv where
  query : String
  searchOutcome : Except AxiosErr (List SearchResult)
  answerOutcome : Except AxiosErr AnswerData
  abortedAfterSearch : Bool
  abortedAtSearchCatch : Bool
  abortedAfterAnswer : Bool
  abortedAtFinally : Bool

/-- The observable trace of one handleSearch execution: the ordered shared
store writes, the values written to the component error state, the
retrieved_chunks argument of the answer call if one was made, whether the
search request was issued, and the validation toast if one was shown. -/
structure HandlerTrace where
  writes : List StoreWrite
  errorEvents : List (Option String)
  answerArgs : Option (List SearchResult)
  searchRequested : Bool
  validationToast : Option String
deriving DecidableEq

/-- The error notice of handleSearch for an empty result set. -/
def emptyResultNotice : String := "No relevant documents found for this query"

/-- The error message of handleSearch when the search call fails. -/
def searchFailedMsg (m : String) : String := "Search failed: " ++ m

/-- The error message of handleSearch when the answer call fails. -/
def answerFailedMsg (m : String) : String := "Failed to generate answer: " ++ m

/-- The error notice of handleSearch for an empty generated answer. -/
def emptyAnswerNotice : String := "Failed to generate answer - empty response"

/-- The store writes of handleSearch's finally block: isSearching is only
reset when the abort signal is not set there. -/
def finallyWrites (abortedAtFinally : Bool) : List StoreWrite :=
  if abortedAtFinally then [] else [.setSearching false]

/-- IntelligentQueryTab handleSearch: the guard on a blank query, the
clearing of previous results, the search call, the abort guard after it,
the empty-result branch, the answer call, the abort guard after it, the
empty-answer branch, both catch blocks and the finally block, transcribed
branch by branch into the trace they produce. -/
def handleSearch (env : SearchEnv) : HandlerTrace :=
  if trimStr env.query = "" then
    ⟨[], [], none, false, some "Please enter a query"⟩
  else
    match env.searchOutcome with
    | .error e =>
      if env.abortedAtSearchCatch then
        ⟨[.clearResults, .setSearching true] ++ finallyWrites env.abortedAtFinally,
         [none], none, true, none⟩
      else
        ⟨[.clearResults, .setSearching true, .setAnswer (some ""), .setResults []] ++
           finallyWrites env.abortedAtFinally,
         [none, some (searchFailedMsg (getErrorMessage e))], none, true, none⟩
    | .ok results =>
      if env.abortedAfterSearch then
        ⟨[.clearResults, .setSearching true] ++ finallyWrites env.abortedAtFinally,
         [none], none, true, none⟩
      else if results = [] then
        ⟨[.clearResults, .setSearching true, .setAnswer (some ""), .setResults [],
            .setSearching false] ++ finallyWrites env.abortedAtFinally,
         [none, some emptyResultNotice], none, true, none⟩
      else
        match env.answerOutcome with
        | .error e =>
          ⟨[.clearResults, .setSearching true, .setResults results,
              .setAnswer (some "")] ++ finallyWrites env.abortedAtFinally,
           [none, some (answerFailedMsg (getErrorMessage e))], some results, true, none⟩
        | .ok ans =>
          if env.abortedAfterAnswer then
            ⟨[.clearResults, .setSearching true, .setResults results] ++
               finallyWrites env.abortedAtFinally,
             [none], some results, true, none⟩
          else if ans.answer = "" then
            ⟨[.clearResults, .setSearching true, .setResults results,
                .setAnswer (some "")] ++ finallyWrites env.abortedAtFinally,
             [none, some emptyAnswerNotice], some results, true, none⟩
          else
            ⟨[.clearResults, .setSearching true, .setResults results,
                .setAnswer (some ans.answer)] ++ finallyWrites env.abortedAtFinally,
             [none, none], some results, true, none⟩

/-- Stable descending insertion used by the spec-modelled search: a new
entry goes after all entries with a score at least as high. -/
def insertByScoreDesc (score : VectorEntry → ℚ) (e : VectorEntry) :
    List VectorEntry → List VectorEntry
  | [] => [e]
  | x :: xs => if score x < score e then e :: x :: xs else x :: insertByScoreDesc score e xs

/-- Stable descending ranking by similarity score. -/
def rankByScoreDesc (score : VectorEntry → ℚ) (l : List VectorEntry) :
    List VectorEntry :=
  l.foldl (fun acc e => insertByScoreDesc score e acc) []

/-- Modelled from the spec: Vector Store search (section 4.2) is backend
code absent from src; it validates k, excludes entries scoring below the
threshold, ranks the rest descending by score (stable ties) and returns at
most k of them with their count; a store with zero entries returns an
empty, non-error result. -/
def storeSearch (entries : List VectorEntry) (score : VectorEntry → ℚ) (k : Int)
    (threshold : ℚ) : Except String (List VectorEntry × Nat) :=
  if k ≤ 0 then .error "k must be a positive integer"
  else
    let kept := entries.filter (fun e => decide (threshold ≤ score e))
    let out := (rankByScoreDesc score kept).take k.toNat
    .ok (out, out.length)

lemma emptyNotice_ne_searchFailed (m : String) :
    emptyResultNotice ≠ searchFailedMsg m := by
  intro h
  obtain ⟨L⟩ := m
  have hN : List.head? emptyResultNotice.data = some 'N' := rfl
  have hS : List.head? (searchFailedMsg ⟨L⟩).data = some 'S' := rfl
  rw [h] at hN
  have hNS : some 'S' = some 'N' := hS.symm.trans hN
  exact absurd hNS (by decide)

/-- Claim C1: an empty result set is handled as a successful, empty
outcome — the handler completes the success path, records the empty result
list and a notice distinct from every capability-error message, and the
spec-modelled backend search over an empty store returns an empty,
non-error response. -/
theorem handleSearch_emptyResult_success (env : SearchEnv)
    (hq : trimStr env.query ≠ "") (hs : env.searchOutcome = .ok [])
    (ha : env.abortedAfterSearch = false) :
    (handleSearch env).errorEvents = [none, some emptyResultNotice] ∧
    (handleSearch env).writes =
      [.clearResults, .setSearching true, .setAnswer (some ""), .setResults [],
       .setSearching false] ++ finallyWrites env.abortedAtFinally ∧
    (handleSearch env).searchRequested = true ∧
    (∀ e : AxiosErr, emptyResultNotice ≠ searchFailedMsg (getErrorMessage e)) ∧
    (∀ (entries : List VectorEntry) (score : VectorEntry → ℚ) (k : Int) (th : ℚ),
      entries = [] → 0 < k → storeSearch entries score k th = .ok ([], 0)) := by
  refine ⟨?_, ?_, ?_, fun e => emptyNotice_ne_searchFailed (getErrorMessage e), ?_⟩
  · simp [handleSearch, hq, hs, ha]
  · simp [handleSearch, hq, hs, ha]
  · simp [handleSearch, hq, hs, ha]
  · intro entries score k th hent hk
    subst hent
    unfold storeSearch
    rw [if_neg (by omega)]
    simp [rankByScoreDesc]

/-- A concrete search result used by the handler witnesses. -/
def demoResult : SearchResult :=
  { file_path := "a.txt", file_name := "a.txt", file_type := "txt",
    chunk_id := 1, chunk_size := 5, text := "hello", similarity_score := 1 }

def demoEnvEmpty : SearchEnv :=
  { query := "what is in the docs", searchOutcome := .ok [],
    answerOutcome := .ok { answer := "", sources := [] },
    abortedAfterSearch := false, abortedAtSearchCatch := false,
    abortedAfterAnswer := false, abortedAtFinally := false }

theorem handleSearch_emptyResult_success_witness :
    (handleSearch demoEnvEmpty).errorEvents = [none, some emptyResultNotice] ∧
    emptyResultNotice ≠ searchFailedMsg (getErrorMessage demoNetErr) ∧
    storeSearch [] (fun _ => 0) 5 0 = .ok ([], 0) := by
  have h := handleSearch_emptyResult_success demoEnvEmpty (by decide) rfl rfl
  exact ⟨h.1, h.2.2.2.1 demoNetErr, h.2.2.2.2 [] (fun _ => 0) 5 0 rfl (by norm_num)⟩

lemma benignWrite (w : StoreWrite)
    (h : w = .clearResults ∨ ∃ b, w = .setSearching b) :
    (∀ l, w ≠ .setResults l) ∧ (∀ a, w ≠ .setAnswer a) := by
  rcases h with rfl | ⟨b, rfl⟩
  · exact ⟨fun l h2 => StoreWrite.noConfusion h2,
      fun a h2 => StoreWrite.noConfusion h2⟩
  · exact ⟨fun l h2 => StoreWrite.noConfusion h2,
      fun a h2 => StoreWrite.noConfusion h2⟩

lemma mem_abortWrites (w : StoreWrite) (aF : Bool)
    (hw : w ∈ [StoreWrite.clearResults, StoreWrite.setSearching true] ++
      finallyWrites aF) :
    w = .clearResults ∨ ∃ b, w = .setSearching b := by
  cases aF with
  | true =>
    simp [finallyWrites] at hw
    rcases hw with rfl | rfl
    · exact Or.inl rfl
    · exact Or.inr ⟨true, rfl⟩
  | false =>
    simp [finallyWrites] at hw
    rcases hw with rfl | rfl | rfl
    · exact Or.inl rfl
    · exact Or.inr ⟨true, rfl⟩
    · exact Or.inr ⟨false, rfl⟩

/-- Claim C4: once the abort signal is observed at a pipeline guard, the
handler writes neither search results nor an answer to the shared store;
in particular a language-model call completing after cancellation has its
generated answer discarded. -/
theorem handleSearch_abort_noStaleWrites (env : SearchEnv) :
    (env.abortedAfterSearch = true → (∃ rs, env.searchOutcome = .ok rs) →
      ∀ w ∈ (handleSearch env).writes,
        (∀ l, w ≠ .setResults l) ∧ (∀ a, w ≠ .setAnswer a)) ∧
    (env.abortedAtSearchCatch = true → (∃ e, env.searchOutcome = .error e) →
      ∀ w ∈ (handleSearch env).writes,
        (∀ l, w ≠ .setResults l) ∧ (∀ a, w ≠ .setAnswer a)) ∧
    (∀ rs ans, env.searchOutcome = .ok rs → rs ≠ [] →
      env.abortedAfterSearch = false → env.answerOutcome = .ok ans →
      env.abortedAfterAnswer = true →
      ∀ w ∈ (handleSearch env).writes, ∀ a, w ≠ .setAnswer a) := by
  refine ⟨?_, ?_, ?_⟩
  · intro hab hex w hw
    obtain ⟨rs, hs⟩ := hex
    by_cases hq : trimStr env.query = ""
    · simp [handleSearch, hq] at hw
    · simp only [handleSearch, if_neg hq, hs, hab, if_true] at hw
      exact benignWrite w (mem_abortWrites w env.abortedAtFinally hw)
  · intro hab hex w hw
    obtain ⟨e, hs⟩ := hex
    by_cases hq : trimStr env.query = ""
    · simp [handleSearch, hq] at hw
    · simp only [handleSearch, if_neg hq, hs, hab, if_true] at hw
      exact benignWrite w (mem_abortWrites w env.abortedAtFinally hw)
  · intro rs ans hs hrs hab hans haa w hw
    by_cases hq : trimStr env.query = ""
    · simp [handleSearch, hq] at hw
    · simp only [handleSearch, if_neg hq, hs, hab, hans, haa, if_true,
        Bool.false_eq_true, if_false, if_neg hrs] at hw
      cases hf : env.abortedAtFinally with
      | true =>
        rw [hf] at hw
        simp [finallyWrites] at hw
        rcases hw with rfl | rfl | rfl
        · exact fun a h2 => StoreWrite.noConfusion h2
        · exact fun a h2 => StoreWrite.noConfusion h2
        · exact fun a h2 => StoreWrite.noConfusion h2
      | false =>
        rw [hf] at hw
        simp [finallyWrites] at hw
        rcases hw with rfl | rfl | rfl | rfl
        · exact fun a h2 => StoreWrite.noConfusion h2
        · exact fun a h2 => StoreWrite.noConfusion h2
        · exact fun a h2 => StoreWrite.noConfusion h2
        · exact fun a h2 => StoreWrite.noConfusion h2

def demoEnvAborted : SearchEnv :=
  { query := "what is in the docs", searchOutcome := .ok [demoResult],
    answerOutcome := .ok { answer := "an answer", sources := [] },
    abortedAfterSearch := true, abortedAtSearchCatch := true,
    abortedAfterAnswer := true, abortedAtFinally := true }

theorem handleSearch_abort_noStaleWrites_witness :
    StoreWrite.setResults [demoResult] ∉ (handleSearch demoEnvAborted).writes ∧
    StoreWrite.setAnswer (some "an answer") ∉ (handleSearch demoEnvAborted).writes := by
  have h := handleSearch_abort_noStaleWrites demoEnvAborted
  constructor
  · intro hmem
    exact ((h.1 rfl ⟨[demoResult], rfl⟩) _ hmem).1 [demoResult] rfl
  · intro hmem
    exact ((h.1 rfl ⟨[demoResult], rfl⟩) _ hmem).2 (some "an answer") rfl

/-- Claim C6: if retrieval returns zero results, the answer-generation
call is never made, and whenever it is made its retrieved_chunks argument
is non-empty. -/
theorem generateAnswer_nonempty_precondition (env : SearchEnv) :
    (env.searchOutcome = .ok [] → (handleSearch env).answerArgs = none) ∧
    (∀ rs, (handleSearch env).answerArgs = some rs → rs ≠ []) := by
  constructor
  · intro hs
    by_cases hq : trimStr env.query = ""
    · simp [handleSearch, hq]
    · by_cases hab : env.abortedAfterSearch
      · simp [handleSearch, hq, hs, hab]
      · simp [handleSearch, hq, hs, hab]
  · intro rs hrs
    by_cases hq : trimStr env.query = ""
    · simp [handleSearch, hq] at hrs
    · rcases hso : env.searchOutcome with e | results
      · by_cases hcatch : env.abortedAtSearchCatch
        · simp [handleSearch, hq, hso, hcatch] at hrs
        · simp [handleSearch, hq, hso, hcatch] at hrs
      · by_cases hab : env.abortedAfterSearch
        · simp [handleSearch, hq, hso, hab] at hrs
        · by_cases hres : results = []
          · simp [handleSearch, hq, hso, hab, hres] at hrs
          · rcases hao : env.answerOutcome with e | ans
            · simp [handleSearch, hq, hso, hab, hres, hao] at hrs
              subst hrs
              exact hres
            · by_cases haa : env.abortedAfterAnswer
              · simp [handleSearch, hq, hso, hab, hres, hao, haa] at hrs
                subst hrs
                exact hres
              · by_cases hans : ans.answer = ""
                · simp [handleSearch, hq, hso, hab, hres, hao, haa, hans] at hrs
                  subst hrs
                  exact hres
                · simp [handleSearch, hq, hso, hab, hres, hao, haa, hans] at hrs
                  subst hrs
                  exact hres

def demoEnvFull : SearchEnv :=
  { query := "what is in the docs", searchOutcome := .ok [demoResult],
    answerOutcome := .ok { answer := "an answer", sources := [] },
    abortedAfterSearch := false, abortedAtSearchCatch := false,
    abortedAfterAnswer := false, abortedAtFinally := false }

theorem generateAnswer_nonempty_precondition_witness :
    (handleSearch demoEnvEmpty).answerArgs = none ∧
    ([demoResult] : List SearchResult) ≠ [] := by
  have h1 := generateAnswer_nonempty_precondition demoEnvEmpty
  have h2 := generateAnswer_nonempty_precondition demoEnvFull
  exact ⟨h1.1 rfl, h2.2 [demoResult] rfl⟩

/-- Claim C8: a blank query is rejected as a validation error before any
request: no store write happens, the search request is never issued, and
the user sees the validation toast. -/
theorem handleSearch_blankQuery_validation (env : SearchEnv)
    (h : trimStr env.query = "") :
    handleSearch env = ⟨[], [], none, false, some "Please enter a query"⟩ := by
  simp [handleSearch, h]

def demoEnvBlank : SearchEnv :=
  { query := "   ", searchOutcome := .ok [],
    answerOutcome := .ok { answer := "", sources := [] },
    abortedAfterSearch := false, abortedAtSearchCatch := false,
    abortedAfterAnswer := false, abortedAtFinally := false }

theorem handleSearch_blankQuery_validation_witness :
    handleSearch demoEnvBlank = ⟨[], [], none, false, some "Please enter a query"⟩ :=
  handleSearch_blankQuery_validation demoEnvBlank (by decide)

/-- Ceiling division on naturals. -/
def ceilDiv (a b : Nat) : Nat := (a + b - 1) / b

/-- Modelled from the spec: the Chunker (section 4.1) is backend code
absent from src. Starting offsets of the chunks of a text of length L:
emit the current offset; if the chunk reaches the end of the text, stop,
otherwise advance by step = chunk size − overlap. The fuel argument only
bounds the recursion and is chosen large enough at the call site. -/
def chunkStartsAux (C step L : Nat) : Nat → Nat → List Nat
  | _, 0 => []
  | s, fuel + 1 => if L ≤ s + C then [s] else s :: chunkStartsAux C step L (s + step) fuel

/-- Modelled from the spec: the chunk starting offsets for a text of
length L with chunk size C and overlap O; empty text yields no chunks. -/
def chunkStarts (L C O : Nat) : List Nat :=
  if L = 0 then [] else chunkStartsAux C (C - O) L 0 (L + 1)

/-- Modelled from the spec: the Chunker output — the spans of the text at
the computed offsets; the final chunk may be shorter than C. -/
def chunkText (text : List Char) (C O : Nat) : List (List Char) :=
  (chunkStarts text.length C O).map (fun s => (text.drop s).take C)

/-- The number of chunks the chunker produces, in closed form. -/
def chunkCount (L C O : Nat) : Nat :=
  if L = 0 then 0 else if L ≤ C then 1 else ceilDiv (L - C) (C - O) + 1

/-- Modelled from the spec: document ingestion rejects a configuration
with overlap at least the chunk size, and rejects empty text as an error
rather than a zero-chunk success. -/
def processDocument (text : List Char) (C O : Nat) :
    Except String (List (List Char)) :=
  if C ≤ O then .error "chunk overlap must be smaller than chunk size"
  else if text.length = 0 then .error "empty document"
  else .ok (chunkText text C O)

lemma ceilDiv_of_le (a step : Nat) (_hstep : 0 < step) (h1 : 0 < a)
    (h2 : a ≤ step) : ceilDiv a step = 1 := by
  unfold ceilDiv
  apply Nat.div_eq_of_lt_le
  · omega
  · omega

lemma ceilDiv_add_step (a step : Nat) (hstep : 0 < step) :
    ceilDiv (a + step) step = ceilDiv a step + 1 := by
  unfold ceilDiv
  have h : a + step + step - 1 = (a + step - 1) + step := by omega
  rw [h, Nat.add_div_right _ hstep]

lemma chunkStartsAux_eq_map (C step L : Nat) (hstep : 0 < step) :
    ∀ fuel s, L - s < fuel →
      chunkStartsAux C step L s fuel =
        (List.range (if L ≤ s + C then 1 else ceilDiv (L - C - s) step + 1)).map
          (fun i => s + step * i) := by
  intro fuel
  induction fuel with
  | zero =>
    intro s h
    omega
  | succ n ih =>
    intro s h
    by_cases hle : L ≤ s + C
    · rw [if_pos hle, show List.range 1 = [0] from rfl]
      simp [chunkStartsAux, hle]
    · have hlt : s + C < L := by omega
      have hrec : L - (s + step) < n := by omega
      rw [if_neg hle]
      simp only [chunkStartsAux, if_neg hle]
      rw [ih (s + step) hrec]
      have hcount : (if L ≤ s + step + C then 1 else ceilDiv (L - C - (s + step)) step + 1) =
          ceilDiv (L - C - s) step := by
        by_cases h2 : L ≤ s + step + C
        · rw [if_pos h2, ceilDiv_of_le (L - C - s) step hstep (by omega) (by omega)]
        · rw [if_neg h2]
          have ha : L - C - s = (L - C - (s + step)) + step := by omega
          rw [ha, ceilDiv_add_step _ _ hstep]
      rw [hcount]
      rw [List.range_succ_eq_map]
      simp only [List.map_cons, List.map_map]
      have hfun : (fun i => s + step + step * i) =
          ((fun i => s + step * i) ∘ Nat.succ) := by
        funext i
        simp only [Function.comp, Nat.mul_succ]
        omega
      rw [hfun]
      simp

lemma chunkStarts_eq_map (L C O : Nat) (hO : O < C) :
    chunkStarts L C O =
      (List.range (chunkCount L C O)).map (fun i => (C - O) * i) := by
  unfold chunkStarts chunkCount
  by_cases hL : L = 0
  · simp [hL]
  · have hstep : 0 < C - O := by omega
    rw [if_neg hL, if_neg hL]
    rw [chunkStartsAux_eq_map C (C - O) L hstep (L + 1) 0 (by omega)]
    have hz : L - C - 0 = L - C := by omega
    rw [hz]
    by_cases hC : L ≤ C
    · rw [if_pos (by omega), if_pos hC]
      simp
    · rw [if_neg (by omega), if_neg hC]
      simp

lemma chunkStarts_length (L C O : Nat) (hO : O < C) :
    (chunkStarts L C O).length = chunkCount L C O := by
  rw [chunkStarts_eq_map L C O hO]
  simp

/-- Claim C2: for a document of length L chunked with size C and overlap
O < C, the chunk count is ceil((L − O)/(C − O)) when L > C, exactly 1 when
0 < L ≤ C, and 0 exactly for empty text, which ingestion rejects as an
error rather than a zero-chunk success; consecutive chunk offsets advance
by C − O. -/
theorem chunker_count_offsets (text : List Char) (C O : Nat) (hO : O < C) :
    (C < text.length →
      (chunkText text C O).length = ceilDiv (text.length - O) (C - O)) ∧
    (0 < text.length → text.length ≤ C → (chunkText text C O).length = 1) ∧
    ((chunkText text C O).length = 0 ↔ text.length = 0) ∧
    processDocument [] C O = .error "empty document" ∧
    (∀ i a b, (chunkStarts text.length C O).get? i = some a →
      (chunkStarts text.length C O).get? (i + 1) = some b → b = a + (C - O)) ∧
    (∀ cs, processDocument text C O = .ok cs → cs ≠ []) := by
  have hstep : 0 < C - O := by omega
  have hlen : (chunkText text C O).length = chunkCount text.length C O := by
    rw [chunkText, List.length_map, chunkStarts_length _ _ _ hO]
  refine ⟨?_, ?_, ?_, ?_, ?_, ?_⟩
  · intro hC
    rw [hlen]
    unfold chunkCount
    rw [if_neg (by omega), if_neg (by omega)]
    have hsplit : text.length - O = (text.length - C) + (C - O) := by omega
    rw [hsplit, ceilDiv_add_step _ _ hstep]
  · intro h0 hC
    rw [hlen]
    unfold chunkCount
    rw [if_neg (by omega), if_pos hC]
  · rw [hlen]
    unfold chunkCount
    by_cases hL : text.length = 0
    · simp [hL]
    · rw [if_neg hL]
      by_cases hC : text.length ≤ C
      · simp [hC, hL]
      · simp [hC, hL]
  · unfold processDocument
    rw [if_neg (by omega)]
    simp
  · intro i a b hga hgb
    rw [chunkStarts_eq_map _ _ _ hO] at hga hgb
    rw [List.get?_map] at hga hgb
    rcases hri : (List.range (chunkCount text.length C O)).get? i with _ | vi
    · rw [hri] at hga
      exact Option.noConfusion hga
    · rcases hrj : (List.range (chunkCount text.length C O)).get? (i + 1) with _ | vj
      · rw [hrj] at hgb
        exact Option.noConfusion hgb
      · have hii : vi = i := by
          have hlt : i < chunkCount text.length C O := by
            have := List.get?_eq_some.mp hri
            obtain ⟨hl, _⟩ := this
            simpa using hl
          rw [List.get?_range hlt] at hri
          injection hri with hri
          omega
        have hjj : vj = i + 1 := by
          have hlt : i + 1 < chunkCount text.length C O := by
            have := List.get?_eq_some.mp hrj
            obtain ⟨hl, _⟩ := this
            simpa using hl
          rw [List.get?_range hlt] at hrj
          injection hrj with hrj
          omega
        rw [hri] at hga
        rw [hrj] at hgb
        simp only [Option.map_some'] at hga hgb
        injection hga with hga
        injection hgb with hgb
        subst hii
        subst hjj
        rw [← hga, ← hgb, Nat.mul_succ]
  · intro cs hcs
    unfold processDocument at hcs
    rw [if_neg (by omega)] at hcs
    by_cases hL : text.length = 0
    · rw [if_pos hL] at hcs
      exact Except.noConfusion hcs
    · rw [if_neg hL] at hcs
      injection hcs with hcs
      intro hnil
      rw [hnil] at hcs
      rw [hcs] at hlen
      simp only [List.length_nil] at hlen
      unfold chunkCount at hlen
      rw [if_neg hL] at hlen
      by_cases hC : text.length ≤ C
      · rw [if_pos hC] at hlen
        exact absurd hlen (by omega)
      · rw [if_neg hC] at hlen
        exact absurd hlen (by omega)

theorem chunker_count_offsets_witness :
    (chunkText (List.replicate 24 'a') 10 2).length = 3 ∧
    (chunkText (List.replicate 7 'b') 10 2).length = 1 := by
  have h1 := (chunker_count_offsets (List.replicate 24 'a') 10 2 (by omega)).1
    (by simp)
  have h2 := (chunker_count_offsets (List.replicate 7 'b') 10 2 (by omega)).2.1
    (by simp) (by simp)
  constructor
  · rw [h1]
    decide
  · exact h2
